/-
Verification of the SCORM module of SkyLearn-LMS (scorm/models.py and
scorm/views.py) against its natural-language specification.

Shallow embedding conventions:
  * Python floats are modelled as rationals (ℚ); `None`-able floats as `Option ℚ`.
  * Django model rows are Lean structures; the durable store for the attempt
    lifecycle is an explicit list of attempts (`LmsState`).
  * Each SCORM runtime HTTP request loads the attempt row fresh from the
    store, acts on the in-memory copy, and persists only where the Python
    view calls `save()` (only `LMSCommit` / `LMSFinish` do).
  * Exceptions raised while extracting a package are modelled by the
    `ExtractEnv` outcomes carrying the exception message: `mkdirFailure` for
    the directory creation that runs before the try/except (uncaught, so it
    propagates and the record is not touched), `failure` for anything raised
    inside the try/except (caught and recorded on the package).
-/
import Mathlib

/-- A Django user, reduced to the fields the SCORM views read
(`user.id`, `get_full_name()`, `username`). -/
structure DjangoUser where
  id : ℕ
  username : String
  full_name : String
  deriving DecidableEq

/-- Model of `ScormPackage` (scorm/models.py), reduced to the fields read or written by
`extract_package`, `launch_scorm_package`, `is_passed`. -/
structure ScormPackage where
  id : ℕ
  course_id : ℕ
  slug : String
  status : String
  entry_point : String
  extracted_path : String
  error_message : String
  /-- Truthiness of the `package_file` FileField (`if not self.package_file`). -/
  package_file : Bool
  allow_multiple_attempts : Bool
  passing_score : ℤ
  deriving DecidableEq

/-- Model of `ScormAttempt` (scorm/models.py): one user attempt at one package. -/
structure ScormAttempt where
  id : ℕ
  package_id : ℕ
  user_id : ℕ
  started_at : ℕ
  last_accessed : ℕ
  completed_at : Option ℕ
  lesson_status : String
  score_raw : Option ℚ
  score_min : ℚ
  score_max : ℚ
  score_scaled : Option ℚ
  progress_measure : ℚ
  /-- Field `total_time` (DurationField): `none` models both NULL and a zero
  duration (both are falsy in `str(x) if x else '00:00:00'`); `some s` carries
  the rendered duration string. -/
  total_time : Option String
  session_time : Option String
  suspend_data : String
  lesson_location : String
  exit_mode : String
  credit : String
  entry : String
  deriving DecidableEq

/-- The keys of `ScormAttempt.STATUS_CHOICES`. -/
def statusChoices : List String :=
  ["browsed", "incomplete", "completed", "failed", "passed", "not_attempted"]

/-- Model of `ScormAttempt.get_percentage_score`:
`(score_raw / score_max) * 100` when `score_raw` is non-null and `score_max`
is truthy (nonzero), otherwise `0`. -/
def get_percentage_score (a : ScormAttempt) : ℚ :=
  match a.score_raw with
  | some r => if a.score_max ≠ 0 then r / a.score_max * 100 else 0
  | none => 0

/-- Model of `ScormAttempt.is_passed`: when `score_raw` is non-null and
`package.passing_score` is truthy (nonzero), compare the percentage
(`raw/max*100`, `0` when `max` is falsy) against the passing score;
otherwise fall back to `lesson_status == 'passed'`. -/
def is_passed (a : ScormAttempt) (pkg : ScormPackage) : Bool :=
  match a.score_raw with
  | some r =>
    if pkg.passing_score ≠ 0 then
      let percentage : ℚ := if a.score_max ≠ 0 then r / a.score_max * 100 else 0
      decide ((pkg.passing_score : ℚ) ≤ percentage)
    else
      decide (a.lesson_status = "passed")
  | none => decide (a.lesson_status = "passed")

/-- Boolean list-prefix test on character lists. -/
def listStartsWith : List Char → List Char → Bool
  | [], _ => true
  | _ :: _, [] => false
  | c :: cs, d :: ds => c == d && listStartsWith cs ds

/-- Capture group of `([^"]+)"`: the maximal run of non-quote characters,
required non-empty and required to be terminated by a closing quote. -/
def captureHref (cs : List Char) : Option (List Char) :=
  let pre := cs.takeWhile (fun c => !(c == '"'))
  if pre.isEmpty then none
  else if (cs.drop pre.length).isEmpty then none
  else some pre

/-- Attempt to match `href="([^"]+)"` at the current position. -/
def scanTagHere (cs : List Char) : Option (List Char) :=
  if listStartsWith "href=\"".toList cs then captureHref (cs.drop 6) else none

/-- Scan the text following a literal `<resource` for `[^>]*href="([^"]+)"`:
the greedy `[^>]*` means the rightmost `href="` occurrence (before any `>`)
that completes a match wins. -/
def scanTag : List Char → Option (List Char)
  | [] => none
  | c :: rest =>
    if c == '>' then scanTagHere (c :: rest)
    else
      match scanTag rest with
      | some r => some r
      | none => scanTagHere (c :: rest)

/-- Model of the search for the resource href pattern: leftmost start
position whose tag scan completes a match. -/
def searchHrefList : List Char → Option (List Char)
  | [] => none
  | c :: rest =>
    if listStartsWith "<resource".toList (c :: rest) then
      match scanTag ((c :: rest).drop 9) with
      | some r => some r
      | none => searchHrefList rest
    else searchHrefList rest

/-- The manifest regex search on strings. -/
def searchResourceHref (content : String) : Option String :=
  (searchHrefList content.toList).map fun l => String.mk l

/-- Outcome of the filesystem and zip operations performed by
`extract_package`, in source order: `mkdirFailure` is an exception raised by
`extract_base.mkdir(...)`, which runs *before* the try/except and is
therefore uncaught; `failure` is an exception raised by any step inside the
try/except (zip open, `extractall`, manifest read), which is caught;
`success` means extraction succeeded and `imsmanifest.xml` had content `m`
(or was absent). -/
inductive ExtractEnv where
  | mkdirFailure (msg : String)
  | failure (msg : String)
  | success (manifest : Option String)
  deriving DecidableEq

/-- Result of one `extract_package` call: either the method returns normally
with the (possibly updated and saved) package record and the Python return
value, or it raises an uncaught exception, leaving the record exactly as it
was. -/
inductive ExtractOutcome where
  | returns (pkg : ScormPackage) (ret : Bool)
  | raises (pkg : ScormPackage) (msg : String)
  deriving DecidableEq

/-- The package record as left behind by an `extract_package` call,
whether it returned or raised. -/
def outcomePackage : ExtractOutcome → ScormPackage
  | .returns pkg _ => pkg
  | .raises pkg _ => pkg

/-- Model of `ScormPackage.extract_package`: mirrors the source in order:
bail out when no file is attached; create the extraction directory — an
exception here is outside the try/except and propagates with the record
untouched; then, inside the try/except, extract and parse: on any caught
exception set status `error` and record the message; on success set the
extracted path, parse the manifest for a resource `href` (falling back to
`index.html`), and set status `ready`. -/
def extract_package (pkg : ScormPackage) (env : ExtractEnv) : ExtractOutcome :=
  if pkg.package_file = false then .returns pkg false
  else
    match env with
    | .mkdirFailure msg => .raises pkg msg
    | .failure msg => .returns { pkg with status := "error", error_message := msg } false
    | .success manifest =>
      let p1 := { pkg with
        extracted_path := "scorm_extracted/" ++ toString pkg.course_id ++ "/" ++ pkg.slug }
      let p2 :=
        match manifest with
        | none => p1
        | some content =>
          match searchResourceHref content with
          | some href => { p1 with entry_point := href }
          | none => { p1 with entry_point := "index.html" }
      .returns { p2 with status := "ready" } true

/-- Numeric value of a list of decimal digit characters (most significant
first). -/
def digitsToNat (ds : List Char) : ℕ :=
  ds.foldl (fun acc c => acc * 10 + (c.toNat - 48)) 0

/-- The syntactic shape of a Python float literal: sign, integer-part digits,
fractional-part digits, and an optional signed exponent. -/
structure PyFloatShape where
  neg : Bool
  intDigits : List Char
  fracPart : List Char
  expPart : Option (Bool × List Char)
  deriving DecidableEq

/-- Scanning phase of Python `float(value)`: optional sign, decimal digits
with an optional fractional part and an optional exponent; `none` models the
`ValueError` raised on anything else. (Special forms such as `inf`, `nan`,
underscores and surrounding whitespace are outside the model.) -/
def pyFloatScan (s : String) : Option PyFloatShape :=
  let cs := s.toList
  let signAndRest : Bool × List Char :=
    match cs with
    | '-' :: r => (true, r)
    | '+' :: r => (false, r)
    | _ => (false, cs)
  let cs0 := signAndRest.2
  let ip := cs0.takeWhile Char.isDigit
  let cs1 := cs0.drop ip.length
  let fpAndRest : List Char × List Char :=
    match cs1 with
    | '.' :: r => (r.takeWhile Char.isDigit, r.drop (r.takeWhile Char.isDigit).length)
    | _ => ([], cs1)
  let fp := fpAndRest.1
  let cs2 := fpAndRest.2
  if ip.isEmpty ∧ fp.isEmpty then none
  else
    match cs2 with
    | [] => some ⟨signAndRest.1, ip, fp, none⟩
    | c :: r =>
      if c == 'e' ∨ c == 'E' then
        let esignAndRest : Bool × List Char :=
          match r with
          | '-' :: t => (true, t)
          | '+' :: t => (false, t)
          | _ => (false, r)
        let ed := esignAndRest.2.takeWhile Char.isDigit
        if ed.isEmpty ∨ ¬(esignAndRest.2.drop ed.length).isEmpty then none
        else some ⟨signAndRest.1, ip, fp, some (esignAndRest.1, ed)⟩
      else none

/-- Numeric value of a scanned float literal. -/
def pyFloatValue (p : PyFloatShape) : ℚ :=
  let sign : ℚ := if p.neg then -1 else 1
  let mant : ℚ :=
    sign * ((digitsToNat p.intDigits : ℚ) + (digitsToNat p.fracPart : ℚ) / (10 ^ p.fracPart.length))
  match p.expPart with
  | none => mant
  | some (eneg, ed) => mant * (10 : ℚ) ^ ((if eneg then -1 else 1) * (digitsToNat ed : ℤ))

/-- Model of Python `float(value)` on strings. -/
def pyFloatOfString (s : String) : Option ℚ :=
  (pyFloatScan s).map pyFloatValue

/-- Integer part of a nonnegative rational (truncating division, which agrees
with the floor on nonnegative inputs). -/
def intPart (q : ℚ) : ℕ := (q.num / (q.den : ℤ)).toNat

/-- Decimal digits of the fractional part of a rational in `[0, 1)`,
rendered until exhausted (fuel-bounded at 17 digits, the precision of a
Python float repr). -/
def fracDigits : ℕ → ℚ → List Char
  | 0, _ => []
  | fuel + 1, q =>
    if q = 0 then []
    else
      let d := intPart (q * 10)
      Char.ofNat (48 + d) :: fracDigits fuel (q * 10 - (d : ℚ))

/-- Model of Python `str(x)` on a float: sign, integer part, a dot, and the
fractional digits (`"0"` when the value is integral, so `str(85.0) = "85.0"`). -/
def pyStr (q : ℚ) : String :=
  let sign := if q < 0 then "-" else ""
  let a := if q < 0 then -q else q
  let ds := fracDigits 17 (a - (intPart a : ℚ))
  sign ++ toString (intPart a) ++ "." ++ (if ds.isEmpty then "0" else String.mk ds)

/-- The element names `get_scorm_value` has a branch for (the implemented
element catalog on the read side). -/
def knownGetElements : List String :=
  ["cmi.core.lesson_status", "cmi.core.score.raw", "cmi.core.score.min",
   "cmi.core.score.max", "cmi.core.lesson_location", "cmi.core.credit",
   "cmi.core.entry", "cmi.core.total_time", "cmi.core.session_time",
   "cmi.core.exit", "cmi.suspend_data", "cmi.launch_data", "cmi.comments",
   "cmi.comments_from_lms", "cmi.core.student_id", "cmi.core.student_name",
   "cmi.core._version"]

/-- Model of `get_scorm_value(attempt, element)` (scorm/views.py): read one CMI data
model element from the attempt (`u` is `attempt.user`), empty string for
anything without a branch. -/
def get_scorm_value (a : ScormAttempt) (u : DjangoUser) (element : String) : String :=
  if element = "cmi.core.lesson_status" then a.lesson_status
  else if element = "cmi.core.score.raw" then
    match a.score_raw with
    | some q => pyStr q
    | none => ""
  else if element = "cmi.core.score.min" then pyStr a.score_min
  else if element = "cmi.core.score.max" then pyStr a.score_max
  else if element = "cmi.core.lesson_location" then a.lesson_location
  else if element = "cmi.core.credit" then a.credit
  else if element = "cmi.core.entry" then a.entry
  else if element = "cmi.core.total_time" then
    match a.total_time with
    | some d => d
    | none => "00:00:00"
  else if element = "cmi.core.session_time" then
    match a.session_time with
    | some d => d
    | none => "00:00:00"
  else if element = "cmi.core.exit" then a.exit_mode
  else if element = "cmi.suspend_data" then a.suspend_data
  else if element = "cmi.launch_data" then ""
  else if element = "cmi.comments" then ""
  else if element = "cmi.comments_from_lms" then ""
  else if element = "cmi.core.student_id" then toString u.id
  else if element = "cmi.core.student_name" then
    (if u.full_name = "" then u.username else u.full_name)
  else if element = "cmi.core._version" then "3.4"
  else ""

/-- The element names `set_scorm_value` has a dedicated equality branch for. -/
def knownSetElements : List String :=
  ["cmi.core.lesson_status", "cmi.core.score.raw", "cmi.core.score.min",
   "cmi.core.score.max", "cmi.core.lesson_location", "cmi.core.exit",
   "cmi.core.session_time", "cmi.suspend_data"]

/-- Model of `set_scorm_value(attempt, element, value)` (scorm/views.py): apply one CMI
write to the in-memory attempt, returning the updated attempt and the SCORM
success flag. Invalid `lesson_status` enum values are ignored but still
succeed; non-numeric score strings fail (`ValueError` branch); interaction
and objective sub-elements and unknown elements succeed without change. The
surrounding `try/except` returns `False` on any exception; no other modelled
operation can raise. -/
def set_scorm_value (a : ScormAttempt) (element value : String) : ScormAttempt × Bool :=
  if element = "cmi.core.lesson_status" then
    (if value ∈ statusChoices then { a with lesson_status := value } else a, true)
  else if element = "cmi.core.score.raw" then
    match pyFloatOfString value with
    | some q => ({ a with score_raw := some q }, true)
    | none => (a, false)
  else if element = "cmi.core.score.min" then
    match pyFloatOfString value with
    | some q => ({ a with score_min := q }, true)
    | none => (a, false)
  else if element = "cmi.core.score.max" then
    match pyFloatOfString value with
    | some q => ({ a with score_max := q }, true)
    | none => (a, false)
  else if element = "cmi.core.lesson_location" then
    ({ a with lesson_location := value.take 255 }, true)
  else if element = "cmi.core.exit" then
    ({ a with exit_mode := value.take 20 }, true)
  else if element = "cmi.core.session_time" then (a, true)
  else if element = "cmi.suspend_data" then ({ a with suspend_data := value }, true)
  else if "cmi.interactions.".isPrefixOf element then (a, true)
  else if "cmi.objectives.".isPrefixOf element then (a, true)
  else (a, true)

/-- Saving an attempt row: `last_accessed` has `auto_now=True`, so every save
stamps it with the current time. -/
def djangoSaveAttempt (a : ScormAttempt) (t : ℕ) : ScormAttempt :=
  { a with last_accessed := t }

/-- One `LMSSetValue` request against the durable attempt row `db`
(scorm_api view): the handler loads the row, calls `set_scorm_value` on the
in-memory instance and returns its flag in the JSON response, but never calls
`save()`, so the durable row is unchanged. -/
def lmsSetValueRequest (db : ScormAttempt) (element value : String) : ScormAttempt × Bool :=
  let loaded := db
  let result := set_scorm_value loaded element value
  (db, result.2)

/-- One `LMSCommit` request: load the row and `save()` it. -/
def lmsCommitRequest (db : ScormAttempt) (t : ℕ) : ScormAttempt :=
  djangoSaveAttempt db t

/-- One `LMSGetValue` request: load the row and read the element. -/
def lmsGetValueRequest (db : ScormAttempt) (u : DjangoUser) (element : String) : String :=
  get_scorm_value db u element

/-- Result of the `launch_scorm_package` view, abstracted from HTTP: either
the policy refusal redirect, the rendered player for an attempt id, or the
500 raised when `get_or_create` finds several matching rows. -/
inductive LaunchResult where
  | refused : LaunchResult
  | player : ℕ → LaunchResult
  | serverError : LaunchResult
  deriving DecidableEq

/-- The durable store relevant to the attempt lifecycle: the attempt rows and
the next autoincrement id. -/
structure LmsState where
  attempts : List ScormAttempt
  nextId : ℕ
  deriving DecidableEq

/-- Model of `ScormAttempt.objects.filter(package=package, user=user)`. -/
def existingAttempts (st : LmsState) (pkg : ScormPackage) (uid : ℕ) : List ScormAttempt :=
  st.attempts.filter (fun a => a.package_id == pkg.id && a.user_id == uid)

/-- Model of `queryset.first()` under the default ordering `['-started_at']`:
the attempt with the largest `started_at` (rows of one (package, user) pair
have distinct `started_at` by the unique-together constraint). -/
def firstByStartedDesc (l : List ScormAttempt) : Option ScormAttempt :=
  match l with
  | [] => none
  | a :: rest => some (rest.foldl (fun b c => if b.started_at < c.started_at then c else b) a)

/-- Terminal statuses checked by the multiple-attempts policy. -/
def isTerminalStatus (s : String) : Bool :=
  s == "completed" || s == "passed"

/-- The `get_or_create(package=..., user=..., lesson_status='not_attempted',
defaults={'started_at': now(), 'lesson_status': 'incomplete'})` call plus the
`if not created: last_accessed = now(); save()` follow-up. The lookup filters
on `lesson_status='not_attempted'`; a created row takes `lesson_status`
from `defaults`, i.e. `'incomplete'` (and `started_at` is stamped by
`auto_now_add`). Several matching rows raise `MultipleObjectsReturned`. -/
def launchGetOrCreate (st : LmsState) (pkg : ScormPackage) (uid t : ℕ) :
    LmsState × LaunchResult :=
  let rows := st.attempts.filter
    (fun a => a.package_id == pkg.id && a.user_id == uid && a.lesson_status == "not_attempted")
  match rows with
  | [a] =>
    let updated := djangoSaveAttempt a t
    ({ st with attempts := st.attempts.map (fun b => if b.id == a.id then updated else b) },
     LaunchResult.player a.id)
  | [] =>
    let newAttempt : ScormAttempt :=
      { id := st.nextId, package_id := pkg.id, user_id := uid,
        started_at := t, last_accessed := t, completed_at := none,
        lesson_status := "incomplete", score_raw := none, score_min := 0,
        score_max := 100, score_scaled := none, progress_measure := 0,
        total_time := none, session_time := none, suspend_data := "",
        lesson_location := "", exit_mode := "", credit := "credit",
        entry := "ab-initio" }
    ({ st with attempts := st.attempts ++ [newAttempt], nextId := st.nextId + 1 },
     LaunchResult.player newAttempt.id)
  | _ => (st, LaunchResult.serverError)

/-- Model of `launch_scorm_package` (scorm/views.py), attempt-lifecycle part: refuse
when multiple attempts are disallowed, some attempt exists, and the most
recently started one is `completed`/`passed`; otherwise get-or-create the
current attempt. Permission checks and template rendering are external. -/
def launch_scorm_package (st : LmsState) (pkg : ScormPackage) (uid t : ℕ) :
    LmsState × LaunchResult :=
  let existing := existingAttempts st pkg uid
  let refuse : Bool :=
    !pkg.allow_multiple_attempts &&
      (match firstByStartedDesc existing with
       | some latest => isTerminalStatus latest.lesson_status
       | none => false)
  if refuse then (st, LaunchResult.refused)
  else launchGetOrCreate st pkg uid t

/-- One per-package row of the `user_scorm_progress` summary. -/
structure PackProgress where
  package_id : ℕ
  latest_attempt_id : ℕ
  total_attempts : ℕ
  best_score : ℚ
  deriving DecidableEq

/-- The `best_score` update of one loop iteration:
`if attempt.score_raw and attempt.score_raw > best_score: best_score = ...`
(`None` and `0.0` are falsy). -/
def stepBest (b : ℚ) (a : ScormAttempt) : ℚ :=
  match a.score_raw with
  | some s => if s ≠ 0 ∧ b < s then s else b
  | none => b

/-- The dict entry created at the first encounter of a package
(`total_attempts: 0, best_score: 0`, `latest_attempt` = first attempt seen,
which is the most recent one under the `-started_at` query ordering). -/
def initEntry (a : ScormAttempt) : PackProgress :=
  { package_id := a.package_id, latest_attempt_id := a.id,
    total_attempts := 0, best_score := 0 }

/-- The unconditional per-attempt update: bump the count and fold the score
into `best_score`. -/
def updateEntry (p : PackProgress) (a : ScormAttempt) : PackProgress :=
  { p with total_attempts := p.total_attempts + 1, best_score := stepBest p.best_score a }

/-- One iteration of the `user_scorm_progress` loop over one attempt:
create the package's entry if absent, then update it. -/
def progressStep (acc : List PackProgress) (a : ScormAttempt) : List PackProgress :=
  let acc1 :=
    if acc.any (fun p => p.package_id == a.package_id) then acc
    else acc ++ [initEntry a]
  acc1.map (fun p => if p.package_id == a.package_id then updateEntry p a else p)

/-- Model of `user_scorm_progress` (scorm/views.py): fold the user's attempts (as
returned by the query, ordered by `-started_at`) into per-package summaries. -/
def user_scorm_progress (attempts : List ScormAttempt) : List PackProgress :=
  attempts.foldl progressStep []

/-- Modelled from the spec: "best (maximum) raw score seen across attempts"
with the loop's starting value `0`, i.e. the maximum of `0` and all non-null
`score_raw` values of the given attempts. Used as the refinement target for
the progress aggregator. -/
def bestScoreSpec (attempts : List ScormAttempt) : ℚ :=
  attempts.foldl
    (fun b a =>
      match a.score_raw with
      | some s => max b s
      | none => b) 0

/-- Lookup of a package's summary row. -/
def findEntry (acc : List PackProgress) (pid : ℕ) : Option PackProgress :=
  acc.find? (fun p => p.package_id == pid)

/-- A baseline attempt row with the model's field defaults, used to build the
concrete instances below. -/
def baseAttempt : ScormAttempt :=
  { id := 1, package_id := 1, user_id := 7, started_at := 1, last_accessed := 1,
    completed_at := none, lesson_status := "not_attempted", score_raw := none,
    score_min := 0, score_max := 100, score_scaled := none, progress_measure := 0,
    total_time := none, session_time := none, suspend_data := "",
    lesson_location := "", exit_mode := "", credit := "credit", entry := "ab-initio" }

/-- A baseline ready package used to build the concrete instances below. -/
def basePackage : ScormPackage :=
  { id := 1, course_id := 1, slug := "pkg", status := "ready",
    entry_point := "index.html", extracted_path := "scorm_extracted/1/pkg",
    error_message := "", package_file := true, allow_multiple_attempts := true,
    passing_score := 70 }

/-- C1/C6 counterexample attempt: `lesson_status` is `'passed'` but the raw
score is far below the passing threshold. -/
def c1Attempt : ScormAttempt :=
  { baseAttempt with lesson_status := "passed", score_raw := some 10 }

/-- C2 state: one in-progress (`'incomplete'`) attempt already exists for
(package 1, user 7), as `launch` itself would have left it. -/
def c2State : LmsState :=
  { attempts := [{ baseAttempt with lesson_status := "incomplete" }], nextId := 2 }

/-- C3 counterexample: an older terminal attempt. -/
def c3OldAttempt : ScormAttempt :=
  { baseAttempt with id := 1, started_at := 1, lesson_status := "completed" }

/-- C3 counterexample: a more recently started non-terminal attempt. -/
def c3NewAttempt : ScormAttempt :=
  { baseAttempt with id := 2, started_at := 2, lesson_status := "incomplete" }

/-- C3 counterexample state: both attempts of user 7 on package 1. -/
def c3State : LmsState :=
  { attempts := [c3OldAttempt, c3NewAttempt], nextId := 3 }

/-- A package that disallows multiple attempts. -/
def c3Package : ScormPackage :=
  { basePackage with allow_multiple_attempts := false }

/-- C3 witness state: the single attempt is terminal. -/
def c3WitnessState : LmsState :=
  { attempts := [c3OldAttempt], nextId := 2 }

/-- C4 counterexample package: a freshly uploaded record, still `pending`
with no error message, whose ingestion is about to run. -/
def c4PendingPackage : ScormPackage :=
  { basePackage with
    status := "pending"
    entry_point := ""
    extracted_path := ""
    error_message := "" }

/-- A manifest whose first resource carries an `href`. -/
def c4Manifest : String :=
  "<manifest><resource type=\"webcontent\" href=\"sco/index.html\"></manifest>"

/-- C5 witness attempt: raw 50 out of 200 is 25 percent. -/
def c5Attempt : ScormAttempt :=
  { baseAttempt with score_raw := some 50, score_max := 200 }

/-- C6 failing input: the durable attempt row starts with no raw score. -/
def c6Attempt : ScormAttempt :=
  { baseAttempt with lesson_status := "incomplete" }

/-- The learner owning the sample attempts. -/
def sampleUser : DjangoUser :=
  { id := 7, username := "learner", full_name := "" }

/-- C9 counterexample attempt: the only recorded score is negative. -/
def c9Attempt : ScormAttempt :=
  { baseAttempt with package_id := 5, score_raw := some (-5) }

theorem captureHref_ne_nil {cs r : List Char} (h : captureHref cs = some r) : r ≠ [] := by
  simp only [captureHref] at h
  split_ifs at h with h1 h2
  simp only [Option.some.injEq] at h
  subst h
  intro hr
  rw [hr] at h1
  simp at h1

theorem scanTagHere_ne_nil {cs r : List Char} (h : scanTagHere cs = some r) : r ≠ [] := by
  simp only [scanTagHere] at h
  split_ifs at h with h1
  exact captureHref_ne_nil h

theorem scanTag_ne_nil : ∀ {cs r : List Char}, scanTag cs = some r → r ≠ [] := by
  intro cs
  induction cs with
  | nil => intro r h; simp [scanTag] at h
  | cons c rest ih =>
    intro r h
    rw [scanTag] at h
    by_cases h1 : (c == '>') = true
    · rw [if_pos h1] at h
      exact scanTagHere_ne_nil h
    · rw [if_neg h1] at h
      cases hrec : scanTag rest with
      | some r2 =>
        rw [hrec] at h
        cases h
        exact ih hrec
      | none =>
        rw [hrec] at h
        exact scanTagHere_ne_nil h

theorem searchHrefList_ne_nil : ∀ {cs r : List Char}, searchHrefList cs = some r → r ≠ [] := by
  intro cs
  induction cs with
  | nil => intro r h; simp [searchHrefList] at h
  | cons c rest ih =>
    intro r h
    rw [searchHrefList] at h
    by_cases h1 : listStartsWith "<resource".toList (c :: rest) = true
    · rw [if_pos h1] at h
      cases hscan : scanTag ((c :: rest).drop 9) with
      | some r2 =>
        rw [hscan] at h
        cases h
        exact scanTag_ne_nil hscan
      | none =>
        rw [hscan] at h
        exact ih h
    · rw [if_neg h1] at h
      exact ih h

theorem searchResourceHref_ne_empty {content href : String}
    (h : searchResourceHref content = some href) : href ≠ "" := by
  unfold searchResourceHref at h
  cases hl : searchHrefList content.toList with
  | none => rw [hl] at h; simp at h
  | some l =>
    rw [hl] at h
    simp only [Option.map_some'] at h
    cases h
    have hne := searchHrefList_ne_nil hl
    intro he
    exact hne (by simpa using congrArg String.data he)

/-- C4 counterexample: a pending package with an attached archive whose
extraction-directory `mkdir` (models.py:152, *outside* the try/except)
raises. The exception propagates uncaught and the record is left exactly as
it was: status still `pending`, `error_message` still empty — contradicting
the claim's "on any failure the package ends with status='error' and a
non-empty error_message" and "never left in 'pending' or 'processing'". -/
theorem c4_counterexample :
    c4PendingPackage.package_file = true ∧
    extract_package c4PendingPackage (ExtractEnv.mkdirFailure "Permission denied")
      = ExtractOutcome.raises c4PendingPackage "Permission denied" ∧
    (outcomePackage (extract_package c4PendingPackage
      (ExtractEnv.mkdirFailure "Permission denied"))).status = "pending" ∧
    (outcomePackage (extract_package c4PendingPackage
      (ExtractEnv.mkdirFailure "Permission denied"))).error_message = "" := by
  decide

/-- C4 amended: for a package with an attached archive, when extraction
succeeds and the archive contained `imsmanifest.xml`, the record ends in
`ready` with a non-empty entry point; a failure raised *inside* the
try/except is caught and ends the record in `error` with the (non-empty)
exception message recorded; but a failure of the extraction-directory
creation — which runs before the try/except — propagates uncaught and
leaves the record untouched, so ingestion can leave the package in
`pending`. -/
theorem c4_extract_outcomes_amended (pkg : ScormPackage) (env : ExtractEnv)
    (hfile : pkg.package_file = true) :
    (∀ m, env = ExtractEnv.success (some m) →
      (outcomePackage (extract_package pkg env)).status = "ready" ∧
      (outcomePackage (extract_package pkg env)).entry_point ≠ "") ∧
    (∀ msg, env = ExtractEnv.failure msg → msg ≠ "" →
      (outcomePackage (extract_package pkg env)).status = "error" ∧
      (outcomePackage (extract_package pkg env)).error_message ≠ "") ∧
    (∀ msg, env = ExtractEnv.mkdirFailure msg →
      extract_package pkg env = ExtractOutcome.raises pkg msg) := by
  have hnotfalse : ¬(pkg.package_file = false) := by simp [hfile]
  refine ⟨?_, ?_, ?_⟩
  · rintro m rfl
    cases hs : searchResourceHref m with
    | some href =>
      have hne := searchResourceHref_ne_empty hs
      simp [extract_package, outcomePackage, if_neg hnotfalse, hs, hne]
    | none =>
      simp [extract_package, outcomePackage, if_neg hnotfalse, hs]
  · rintro msg rfl hmsg
    simp [extract_package, outcomePackage, if_neg hnotfalse, hmsg]
  · rintro msg rfl
    simp [extract_package, if_neg hnotfalse]

/-- Witness for the amended C4 at a concrete package and concrete success,
caught-failure and uncaught-mkdir-failure environments. -/
theorem c4_witness :
    (outcomePackage (extract_package basePackage
      (ExtractEnv.success (some c4Manifest)))).status = "ready" ∧
    (outcomePackage (extract_package basePackage
      (ExtractEnv.success (some c4Manifest)))).entry_point ≠ "" ∧
    (outcomePackage (extract_package basePackage
      (ExtractEnv.failure "bad zip"))).status = "error" ∧
    extract_package c4PendingPackage (ExtractEnv.mkdirFailure "disk full")
      = ExtractOutcome.raises c4PendingPackage "disk full" :=
  ⟨((c4_extract_outcomes_amended basePackage _ rfl).1 c4Manifest rfl).1,
   ((c4_extract_outcomes_amended basePackage _ rfl).1 c4Manifest rfl).2,
   ((c4_extract_outcomes_amended basePackage _ rfl).2.1 "bad zip" rfl (by decide)).1,
   (c4_extract_outcomes_amended c4PendingPackage _ rfl).2.2 "disk full" rfl⟩

/-- C1 counterexample: an attempt whose `lesson_status` is `'passed'` but
whose recorded score is below the threshold. The claim ("is_passed iff
status is passed OR percentage meets the threshold") requires `true` here,
but `is_passed` is `false`: the score branch ignores `lesson_status`. -/
theorem c1_counterexample :
    c1Attempt.lesson_status = "passed" ∧ is_passed c1Attempt basePackage = false := by
  constructor
  · rfl
  · simp [is_passed, c1Attempt, baseAttempt, basePackage]
    norm_num

/-- C1 amended: when `score_raw` is non-null and the package's
`passing_score` is nonzero, `is_passed` is the percentage comparison alone
(with `get_percentage_score` giving `0` for a zero `score_max`); only
otherwise is it `lesson_status == 'passed'`. -/
theorem c1_is_passed_amended (a : ScormAttempt) (pkg : ScormPackage) :
    is_passed a pkg = true ↔
      (if a.score_raw ≠ none ∧ pkg.passing_score ≠ 0
       then (pkg.passing_score : ℚ) ≤ get_percentage_score a
       else a.lesson_status = "passed") := by
  cases h : a.score_raw with
  | none => simp [is_passed, get_percentage_score, h]
  | some r =>
    by_cases hp : pkg.passing_score = 0
    · simp [is_passed, get_percentage_score, h, hp]
    · simp [is_passed, get_percentage_score, h, hp]

/-- C5: `get_percentage_score` is `raw/max*100` for a non-null raw score and
nonzero max, `0` when max is `0`, and `0` when the raw score is null; being a
total Lean function it never raises. -/
theorem c5_percentage_score (a : ScormAttempt) :
    (∀ r, a.score_raw = some r → a.score_max ≠ 0 →
      get_percentage_score a = r / a.score_max * 100) ∧
    (a.score_max = 0 → get_percentage_score a = 0) ∧
    (a.score_raw = none → get_percentage_score a = 0) := by
  refine ⟨?_, ?_, ?_⟩
  · intro r hr hm
    simp [get_percentage_score, hr, hm]
  · intro hm
    cases hr : a.score_raw with
    | none => simp [get_percentage_score, hr]
    | some r => simp [get_percentage_score, hr, hm]
  · intro hr
    simp [get_percentage_score, hr]

/-- Witness for C5: raw 50 out of max 200 evaluates to 25 percent. -/
theorem c5_witness : get_percentage_score c5Attempt = 25 := by
  have h := (c5_percentage_score c5Attempt).1 50 rfl (by decide)
  rw [h]
  norm_num [c5Attempt, baseAttempt]

/-- C7: `get_scorm_value` returns the empty string on any element outside
the implemented catalog; as a total Lean function it never raises. -/
theorem c7_get_unknown_empty (a : ScormAttempt) (u : DjangoUser) (element : String)
    (h : element ∉ knownGetElements) :
    get_scorm_value a u element = "" := by
  simp only [knownGetElements, List.mem_cons, List.mem_singleton, not_or] at h
  obtain ⟨h1, h2, h3, h4, h5, h6, h7, h8, h9, h10, h11, h12, h13, h14, h15, h16, h17, -⟩ := h
  simp only [get_scorm_value, if_neg h1, if_neg h2, if_neg h3, if_neg h4, if_neg h5, if_neg h6,
    if_neg h7, if_neg h8, if_neg h9, if_neg h10, if_neg h11, if_neg h12, if_neg h13, if_neg h14,
    if_neg h15, if_neg h16, if_neg h17]

/-- Witness for C7: a SCORM 1.2 element name with no branch in the code. -/
theorem c7_witness : get_scorm_value baseAttempt sampleUser "cmi.student_data.mastery_score" = "" :=
  c7_get_unknown_empty baseAttempt sampleUser "cmi.student_data.mastery_score" (by decide)

/-- C8: a `cmi.core.lesson_status` write with a value in the status enum
updates the field and returns `true`; a value outside the enum leaves the
field unchanged and still returns `true`. -/
theorem c8_lesson_status_set (a : ScormAttempt) (v : String) :
    (v ∈ statusChoices →
      set_scorm_value a "cmi.core.lesson_status" v = ({ a with lesson_status := v }, true)) ∧
    (v ∉ statusChoices →
      set_scorm_value a "cmi.core.lesson_status" v = (a, true)) := by
  constructor
  · intro hv
    simp [set_scorm_value, hv]
  · intro hv
    simp [set_scorm_value, hv]

/-- Witness for C8: a valid and an invalid status value on a concrete
attempt. -/
theorem c8_witness :
    set_scorm_value baseAttempt "cmi.core.lesson_status" "passed"
        = ({ baseAttempt with lesson_status := "passed" }, true) ∧
    set_scorm_value baseAttempt "cmi.core.lesson_status" "finished" = (baseAttempt, true) :=
  ⟨(c8_lesson_status_set baseAttempt "passed").1 (by decide),
   (c8_lesson_status_set baseAttempt "finished").2 (by decide)⟩

/-- C10: `set_scorm_value` on any element without a dedicated branch —
including every `cmi.interactions.*` and `cmi.objectives.*` path — returns
`true` and leaves the attempt unchanged; totality and the boolean return
type are inherent to the embedding, mirroring the `try/except` wrapper that
converts any exception into `False`. -/
theorem c10_set_unknown_total (a : ScormAttempt) (element value : String)
    (h : element ∉ knownSetElements) :
    set_scorm_value a element value = (a, true) := by
  simp only [knownSetElements, List.mem_cons, List.mem_singleton, not_or] at h
  obtain ⟨h1, h2, h3, h4, h5, h6, h7, h8, -⟩ := h
  simp only [set_scorm_value, if_neg h1, if_neg h2, if_neg h3, if_neg h4, if_neg h5, if_neg h6,
    if_neg h7, if_neg h8]
  split_ifs <;> rfl

/-- Witness for C10: an objectives sub-element write is accepted without
modifying the attempt. -/
theorem c10_witness :
    set_scorm_value baseAttempt "cmi.objectives.0.score.raw" "42" = (baseAttempt, true) :=
  c10_set_unknown_total baseAttempt "cmi.objectives.0.score.raw" "42" (by decide)

/-- C2 evaluation at the failing input: with one in-progress (`incomplete`)
attempt already present, two consecutive launches return two different new
attempt ids (2 then 3) and grow the attempt set to 3 rows, because
`get_or_create` looks up `lesson_status='not_attempted'` while every attempt
it creates has `lesson_status='incomplete'`; the claim (and the spec's
resume behaviour) requires the same identifier and no new attempt. -/
theorem c2_launch_not_idempotent :
    c2State.attempts.length = 1 ∧
    (∀ a ∈ c2State.attempts, a.lesson_status = "incomplete") ∧
    (launch_scorm_package c2State basePackage 7 5).2 = LaunchResult.player 2 ∧
    (launch_scorm_package (launch_scorm_package c2State basePackage 7 5).1
        basePackage 7 6).2 = LaunchResult.player 3 ∧
    (launch_scorm_package (launch_scorm_package c2State basePackage 7 5).1
        basePackage 7 6).1.attempts.length = 3 := by
  decide

/-- C3 counterexample: multiple attempts are disallowed and a *prior*
attempt is `completed`, but a more recently started attempt is `incomplete`,
so the latest-attempt check does not fire: launch is not refused and a new
attempt is created (3 rows afterwards), contradicting the claim for "any
prior attempt". -/
theorem c3_counterexample :
    c3Package.allow_multiple_attempts = false ∧
    c3OldAttempt ∈ c3State.attempts ∧
    c3OldAttempt.lesson_status = "completed" ∧
    (launch_scorm_package c3State c3Package 7 5).2 ≠ LaunchResult.refused ∧
    (launch_scorm_package c3State c3Package 7 5).1.attempts.length = 3 := by
  decide

/-- C3 amended: launch refuses — leaving the store untouched — exactly when
multiple attempts are disallowed and the *most recently started* attempt of
the (package, user) pair is `completed`/`passed`. -/
theorem c3_launch_refusal_amended (st : LmsState) (pkg : ScormPackage) (uid t : ℕ)
    (la : ScormAttempt)
    (h1 : pkg.allow_multiple_attempts = false)
    (h2 : firstByStartedDesc (existingAttempts st pkg uid) = some la)
    (h3 : la.lesson_status = "completed" ∨ la.lesson_status = "passed") :
    launch_scorm_package st pkg uid t = (st, LaunchResult.refused) := by
  have hterm : isTerminalStatus la.lesson_status = true := by
    rcases h3 with h3 | h3 <;> simp [isTerminalStatus, h3]
  simp [launch_scorm_package, h1, h2, hterm]

/-- Witness for the amended C3: a single terminal attempt with multiple
attempts disallowed makes launch refuse and keeps the store unchanged. -/
theorem c3_witness :
    launch_scorm_package c3WitnessState c3Package 7 5 = (c3WitnessState, LaunchResult.refused) := by
  apply c3_launch_refusal_amended c3WitnessState c3Package 7 5 c3OldAttempt
  · rfl
  · decide
  · left
    rfl

/-- C6 evaluation at the failing input: on a durable attempt row with no raw
score, the `LMSSetValue('cmi.core.score.raw', '85')` request reports success
but never saves, the following `LMSCommit` request re-saves the stale row,
and the following `LMSGetValue` returns `''` instead of the claimed
`'85.0'` (which is what the canonical float string would be, third
conjunct). The non-numeric half of the claim does hold (fourth conjunct). -/
theorem c6_set_commit_get_divergence :
    (lmsSetValueRequest c6Attempt "cmi.core.score.raw" "85").2 = true ∧
    lmsGetValueRequest
        (lmsCommitRequest (lmsSetValueRequest c6Attempt "cmi.core.score.raw" "85").1 9)
        sampleUser "cmi.core.score.raw" = "" ∧
    pyStr 85 = "85.0" ∧
    set_scorm_value c6Attempt "cmi.core.score.raw" "notanumber" = (c6Attempt, false) := by
  refine ⟨by decide, by decide, ?_, ?_⟩
  · have hneg : ¬ ((85:ℚ) < 0) := by norm_num
    have hip : intPart (85:ℚ) = 85 := by decide
    have hfrac : (85:ℚ) - (intPart (85:ℚ) : ℚ) = 0 := by
      rw [hip]
      norm_num
    simp [pyStr, hneg, hip, hfrac, fracDigits]
    rfl
  · have hscan : pyFloatScan "notanumber" = none := by decide
    simp [set_scorm_value, pyFloatOfString, hscan]

theorem updateEntry_package_id (p : PackProgress) (a : ScormAttempt) :
    (updateEntry p a).package_id = p.package_id := rfl

theorem stepBest_eq_max (b : ℚ) (hb : 0 ≤ b) (a : ScormAttempt) :
    stepBest b a =
      match a.score_raw with
      | some s => max b s
      | none => b := by
  cases h : a.score_raw with
  | none => simp [stepBest, h]
  | some s =>
    simp only [stepBest, h]
    rcases le_or_lt s b with hle | hlt
    · rw [if_neg fun hc => absurd hc.2 (not_lt.mpr hle)]
      exact (max_eq_left hle).symm
    · have h0 : s ≠ 0 := (ne_of_gt (lt_of_le_of_lt hb hlt))
      rw [if_pos ⟨h0, hlt⟩]
      exact (max_eq_right (le_of_lt hlt)).symm

theorem foldl_stepBest_eq_max :
    ∀ (m : List ScormAttempt) (b : ℚ), 0 ≤ b →
      m.foldl stepBest b =
        m.foldl (fun x a =>
          match a.score_raw with
          | some s => max x s
          | none => x) b := by
  intro m
  induction m with
  | nil =>
    intro b hb
    rfl
  | cons a rest ih =>
    intro b hb
    simp only [List.foldl_cons]
    rw [stepBest_eq_max b hb a]
    cases h : a.score_raw with
    | none =>
      simp only [h]
      exact ih b hb
    | some s =>
      simp only [h]
      exact ih (max b s) (le_trans hb (le_max_left b s))

theorem findEntry_map_update (acc : List PackProgress) (a : ScormAttempt) (pid : ℕ) :
    findEntry (acc.map (fun p => if p.package_id == a.package_id then updateEntry p a else p)) pid
      = (findEntry acc pid).map
          (fun p => if p.package_id == a.package_id then updateEntry p a else p) := by
  induction acc with
  | nil => rfl
  | cons q rest ih =>
    have hproj : (if q.package_id == a.package_id then updateEntry q a else q).package_id
        = q.package_id := by
      split_ifs <;> rfl
    unfold findEntry at ih ⊢
    cases hq : q.package_id == pid with
    | true =>
      rw [List.map_cons]
      simp only [List.find?, hproj, hq]
      rfl
    | false =>
      rw [List.map_cons]
      simp only [List.find?, hproj, hq]
      exact ih

theorem findEntry_append_single (acc : List PackProgress) (x : PackProgress) (pid : ℕ) :
    findEntry (acc ++ [x]) pid =
      match findEntry acc pid with
      | some q => some q
      | none => if x.package_id == pid then some x else none := by
  unfold findEntry
  induction acc with
  | nil =>
    simp only [List.nil_append, List.find?_nil, List.find?]
    cases hx : x.package_id == pid with
    | true => rfl
    | false => rfl
  | cons q rest ih =>
    rw [List.cons_append]
    cases hq : q.package_id == pid with
    | true => simp only [List.find?, hq]
    | false =>
      simp only [List.find?, hq]
      exact ih

theorem any_eq_findEntry_isSome (acc : List PackProgress) (k : ℕ) :
    acc.any (fun p => p.package_id == k) = (findEntry acc k).isSome := by
  unfold findEntry
  induction acc with
  | nil => rfl
  | cons q rest ih =>
    cases hq : q.package_id == k with
    | true => simp [List.any_cons, hq, List.find?, Option.isSome]
    | false =>
      simp only [List.any_cons, hq, Bool.false_or, List.find?]
      exact ih

theorem findEntry_some_pid {acc : List PackProgress} {pid : ℕ} {q : PackProgress}
    (h : findEntry acc pid = some q) : q.package_id = pid := by
  unfold findEntry at h
  induction acc with
  | nil => simp [List.find?_nil] at h
  | cons x rest ih =>
    cases hx : x.package_id == pid with
    | true =>
      simp only [List.find?, hx] at h
      cases h
      simpa using hx
    | false =>
      simp only [List.find?, hx] at h
      exact ih h

theorem findEntry_progressStep (acc : List PackProgress) (a : ScormAttempt) (pid : ℕ) :
    findEntry (progressStep acc a) pid =
      if a.package_id == pid then
        match findEntry acc pid with
        | some q => some (updateEntry q a)
        | none => some (updateEntry (initEntry a) a)
      else findEntry acc pid := by
  unfold progressStep
  rw [findEntry_map_update, any_eq_findEntry_isSome]
  by_cases hpid : a.package_id = pid
  · subst hpid
    cases hf : findEntry acc a.package_id with
    | some q =>
      have hq : q.package_id = a.package_id := findEntry_some_pid hf
      simp [hf, hq]
    | none =>
      simp [hf, findEntry_append_single, initEntry, updateEntry]
  · have hne : pid ≠ a.package_id := fun h => hpid h.symm
    have hbeq : (a.package_id == pid) = false := by simpa using hpid
    cases hf2 : findEntry acc a.package_id with
    | some q2 =>
      cases hf : findEntry acc pid with
      | none => simp [hf2, hf, hbeq]
      | some q =>
        have hq : q.package_id = pid := findEntry_some_pid hf
        simp [hf2, hf, hbeq, hq, hne]
    | none =>
      cases hf : findEntry acc pid with
      | none => simp [hf2, hf, hbeq, findEntry_append_single, initEntry]
      | some q =>
        have hq : q.package_id = pid := findEntry_some_pid hf
        simp [hf2, hf, hbeq, hq, hne, findEntry_append_single]

theorem findEntry_foldl_progress :
    ∀ (l : List ScormAttempt) (acc : List PackProgress) (pid : ℕ),
      findEntry (l.foldl progressStep acc) pid =
        match findEntry acc pid with
        | some q => some { q with
            total_attempts := q.total_attempts + (l.filter (fun a => a.package_id == pid)).length,
            best_score := (l.filter (fun a => a.package_id == pid)).foldl stepBest q.best_score }
        | none =>
          match l.filter (fun a => a.package_id == pid) with
          | [] => none
          | a :: m =>
            some { package_id := pid
                   latest_attempt_id := a.id
                   total_attempts := m.length + 1
                   best_score := (a :: m).foldl stepBest 0 } := by
  intro l
  induction l with
  | nil =>
    intro acc pid
    cases hf : findEntry acc pid with
    | none => simp [hf]
    | some q => simp [hf]
  | cons a rest ih =>
    intro acc pid
    rw [List.foldl_cons, ih (progressStep acc a) pid, findEntry_progressStep]
    cases hpid : a.package_id == pid with
    | true =>
      have hpid2 : a.package_id = pid := by simpa using hpid
      rw [List.filter_cons_of_pos (by simpa using hpid)]
      cases hf : findEntry acc pid with
      | some q =>
        obtain ⟨qp, ql, qt, qb⟩ := q
        simp [hf, updateEntry]
        all_goals omega
      | none =>
        simp [hf, updateEntry, initEntry, hpid2]
        all_goals omega
    | false =>
      rw [List.filter_cons_of_neg (by simpa using hpid)]
      simp only [Bool.false_eq_true, if_false]

theorem pairwise_keys_progressStep (acc : List PackProgress) (a : ScormAttempt)
    (h : acc.Pairwise (fun p q => p.package_id ≠ q.package_id)) :
    (progressStep acc a).Pairwise (fun p q => p.package_id ≠ q.package_id) := by
  unfold progressStep
  have hmap : ∀ (l : List PackProgress),
      l.Pairwise (fun p q => p.package_id ≠ q.package_id) →
      (l.map (fun p => if p.package_id == a.package_id then updateEntry p a else p)).Pairwise
        (fun p q => p.package_id ≠ q.package_id) := by
    intro l hl
    rw [List.pairwise_map]
    refine hl.imp ?_
    intro p q hne
    have hp : (if p.package_id == a.package_id then updateEntry p a else p).package_id
        = p.package_id := by split_ifs <;> rfl
    have hq : (if q.package_id == a.package_id then updateEntry q a else q).package_id
        = q.package_id := by split_ifs <;> rfl
    rw [hp, hq]
    exact hne
  apply hmap
  by_cases hany : acc.any (fun p => p.package_id == a.package_id) = true
  · rw [if_pos hany]
    exact h
  · rw [if_neg hany]
    rw [List.pairwise_append]
    refine ⟨h, by simp, ?_⟩
    intro p hp x hx
    simp only [List.mem_singleton] at hx
    subst hx
    have := List.any_eq_false.mp (Bool.eq_false_iff.mpr hany) p hp
    simpa [initEntry] using this

theorem pairwise_keys_user_progress (l : List ScormAttempt) :
    (user_scorm_progress l).Pairwise (fun p q => p.package_id ≠ q.package_id) := by
  unfold user_scorm_progress
  have main : ∀ (m : List ScormAttempt) (acc : List PackProgress),
      acc.Pairwise (fun p q => p.package_id ≠ q.package_id) →
      (m.foldl progressStep acc).Pairwise (fun p q => p.package_id ≠ q.package_id) := by
    intro m
    induction m with
    | nil => intro acc h; exact h
    | cons a rest ih =>
      intro acc h
      exact ih _ (pairwise_keys_progressStep acc a h)
  exact main l [] List.Pairwise.nil

theorem findEntry_of_mem :
    ∀ {acc : List PackProgress},
      acc.Pairwise (fun p q => p.package_id ≠ q.package_id) →
      ∀ {p : PackProgress}, p ∈ acc → findEntry acc p.package_id = some p := by
  intro acc
  induction acc with
  | nil =>
    intro _ p hp
    cases hp
  | cons q rest ih =>
    intro h p hp
    rcases List.mem_cons.mp hp with rfl | hmem
    · unfold findEntry
      simp [List.find?]
    · have hne : q.package_id ≠ p.package_id := (List.pairwise_cons.mp h).1 p hmem
      have hbeq : (q.package_id == p.package_id) = false := by simpa using hne
      unfold findEntry
      simp only [List.find?, hbeq]
      have := ih (List.pairwise_cons.mp h).2 hmem
      simpa [findEntry] using this

/-- C9 counterexample: with a single attempt whose only recorded raw score is
negative, the summary's best score is `0`, not the maximum raw score `-5`:
the loop ignores scores that are falsy or not above the running best, which
starts at `0`. -/
theorem c9_counterexample :
    c9Attempt.score_raw = some (-5) ∧
    user_scorm_progress [c9Attempt] =
      [{ package_id := 5, latest_attempt_id := 1, total_attempts := 1, best_score := 0 }] ∧
    (0 : ℚ) ≠ -5 := by
  refine ⟨rfl, by decide, by decide⟩

/-- C9 amended: every row of the per-package summary reports the exact
number of the learner's attempts on that package, and its best score is the
maximum of `0` and all non-null `score_raw` values of those attempts
(`bestScoreSpec`), rather than the plain maximum raw score. -/
theorem c9_progress_amended (attempts : List ScormAttempt) (p : PackProgress)
    (hp : p ∈ user_scorm_progress attempts) :
    p.total_attempts = (attempts.filter (fun a => a.package_id == p.package_id)).length ∧
    p.best_score = bestScoreSpec (attempts.filter (fun a => a.package_id == p.package_id)) := by
  have hfind := findEntry_of_mem (pairwise_keys_user_progress attempts) hp
  unfold user_scorm_progress at hfind
  rw [findEntry_foldl_progress] at hfind
  cases hfl : attempts.filter (fun a => a.package_id == p.package_id) with
  | nil =>
    rw [hfl] at hfind
    simp [findEntry] at hfind
  | cons a m =>
    rw [hfl] at hfind
    simp only [findEntry, List.find?_nil] at hfind
    have hx := Option.some.inj hfind
    obtain ⟨pp, pl, pt, pb⟩ := p
    simp only [PackProgress.mk.injEq] at hx
    obtain ⟨-, -, hx3, hx4⟩ := hx
    constructor
    · simp only [List.length_cons]
      omega
    · rw [← hx4]
      show (a :: m).foldl stepBest 0 = bestScoreSpec (a :: m)
      exact foldl_stepBest_eq_max (a :: m) 0 le_rfl

/-- Witness for the amended C9 at a concrete attempt list. -/
theorem c9_witness :
    (⟨5, 1, 1, 0⟩ : PackProgress) ∈ user_scorm_progress [c9Attempt] ∧
    ((⟨5, 1, 1, 0⟩ : PackProgress).total_attempts
        = ([c9Attempt].filter (fun a => a.package_id == (5 : ℕ))).length ∧
      (⟨5, 1, 1, 0⟩ : PackProgress).best_score
        = bestScoreSpec ([c9Attempt].filter (fun a => a.package_id == (5 : ℕ)))) := by
  have hp : (⟨5, 1, 1, 0⟩ : PackProgress) ∈ user_scorm_progress [c9Attempt] := by decide
  exact ⟨hp, c9_progress_amended [c9Attempt] _ hp⟩
